import Mathlib

/-!
StarTrack web application — a shallow embedding of `WebApp/StarTrackWebApp.py`
and proofs about its pass-sampling, trajectory-encoding and device-session
endpoints.

Modelling conventions:

* Angles (azimuth/elevation, degrees) are rationals `ℚ`; instants are Unix
  epoch seconds `ℤ`.  Python floats are abstracted as exact rationals; the
  only rounding in the program is the fixed 2-decimal formatting, modelled
  with `round` on `ℚ` (Python `:.2f` rounds half-to-even; no statement
  proved here evaluates formatting at a half-way tie, so the tie-breaking
  convention is immaterial).
* The skyfield propagation pipeline (`EarthSatellite`, `Topos`,
  `difference.at(times).azalt()`) is an external library; it is abstracted
  as an oracle `Sky` giving azimuth and elevation in degrees per TLE,
  observer and instant, plus an optional exception (`fail`) standing for any
  exception raised inside the `try` block of `calculate_trajectory`.
* Wire strings are `List Char`; human-readable API messages are `String`.
* Outbound HTTP calls made with `requests` are abstracted as a `NetResult`
  (a device response with a status code and body, or a transport error —
  `requests.exceptions.RequestException`, which includes connection
  refusals and timeouts).  Endpoint handlers also return the number of
  network calls they performed, so claims about calls being avoided are
  statable.
-/

namespace StarTrack

/-! ### Decimal digit rendering (Python `str` / f-string formatting) -/

/-- The decimal digit character for `d` (digits `0`–`9`; callers only pass
`d < 10`, the final pattern covers `9` and larger). -/
def digitOf (d : ℕ) : Char :=
  match d with
  | 0 => '0' | 1 => '1' | 2 => '2' | 3 => '3' | 4 => '4'
  | 5 => '5' | 6 => '6' | 7 => '7' | 8 => '8' | _ => '9'

/-- The ten decimal digit characters. -/
def digitChars : List Char := ['0', '1', '2', '3', '4', '5', '6', '7', '8', '9']

/-- Decimal rendering of a natural number, most significant digit first,
as Python `str` prints a nonnegative `int`. -/
def natToChars (n : ℕ) : List Char :=
  if n < 10 then [digitOf n]
  else natToChars (n / 10) ++ [digitOf (n % 10)]
  decreasing_by exact Nat.div_lt_self (by omega) (by omega)

/-- Decimal rendering of an integer, with a leading minus sign when
negative, as Python `str` prints an `int`. -/
def intToChars (z : ℤ) : List Char :=
  if z < 0 then '-' :: natToChars z.natAbs else natToChars z.natAbs

/-- Two-digit zero-padded rendering of `m < 100` — the fractional part
produced by Python `:.2f` formatting. -/
def pad2 (m : ℕ) : List Char := [digitOf (m / 10), digitOf (m % 10)]

/-- Fixed two-decimal rendering of the centidegree value `z`: `fmt2 z` is
the text Python `f-string` formatting `:.2f` produces for the number
`z / 100` (sign, integer part, point, exactly two fractional digits). -/
def fmt2 (z : ℤ) : List Char :=
  (if z < 0 then ['-'] else []) ++ natToChars (z.natAbs / 100) ++ '.' :: pad2 (z.natAbs % 100)

/-! ### Decimal parsing (used by the spec-modelled decoder) -/

/-- Numeric value of a decimal digit character. -/
def digitVal (c : Char) : ℕ := c.toNat - 48

/-- Parse a nonempty all-digit character list as a natural number. -/
def parseNat (cs : List Char) : Option ℕ :=
  if cs ≠ [] ∧ ∀ c ∈ cs, c.isDigit = true then
    some (cs.foldl (fun a c => 10 * a + digitVal c) 0)
  else none

/-- Parse an optionally minus-signed decimal integer. -/
def parseIntChars (cs : List Char) : Option ℤ :=
  if cs.head? = some '-' then (parseNat cs.tail).map (fun n => -(n : ℤ))
  else (parseNat cs).map (fun n => (n : ℤ))

/-- Parse an unsigned fixed-point numeral with exactly two fractional
digits, returning its value in centidegrees. -/
def parseFix2Nat (cs : List Char) : Option ℕ :=
  match cs.splitOn '.' with
  | [ip, fp] =>
    if fp.length = 2 then
      (parseNat ip).bind fun i => (parseNat fp).map fun f => 100 * i + f
    else none
  | _ => none

/-- Parse an optionally minus-signed fixed-point numeral with exactly two
fractional digits, returning its value in centidegrees. -/
def parseFix2 (cs : List Char) : Option ℤ :=
  if cs.head? = some '-' then (parseFix2Nat cs.tail).map (fun n => -(n : ℤ))
  else (parseFix2Nat cs).map (fun n => (n : ℤ))

/-! ### Data model -/

/-- One topocentric sample: instant (Unix epoch seconds), azimuth and
elevation in degrees. -/
structure TopocentricSample where
  instant : ℤ
  az : ℚ
  el : ℚ
deriving DecidableEq, Repr

/-- A trajectory is a sequence of topocentric samples. -/
abbrev Trajectory := List TopocentricSample

/-! ### Configuration constants of `StarTrackWebApp.py` -/

/-- Source: `ESP32_IP_ADDRESS = "192.168.4.1"`. -/
def ESP32_IP_ADDRESS : String := "192.168.4.1"

/-- Source: the hardcoded mock TLE `ISS_TLE_LINES` (ISS — ZARYA). -/
def ISS_TLE_LINES : List String :=
  ["1 25544U 98067A   25305.50000000  .00002130  00000+0  42173-4 0  9999",
   "2 25544  51.6421 213.6268 0005500 240.2789 119.7211 15.49479308472496"]

/-- Source: `DEFAULT_LAT = 39.86`. -/
def DEFAULT_LAT : ℚ := 39.86

/-- Source: `DEFAULT_LON = -84.38`. -/
def DEFAULT_LON : ℚ := -84.38

/-- Source: `DEFAULT_ALT_M = 300`. -/
def DEFAULT_ALT_M : ℚ := 300

/-- Source: `time_step_seconds = 5`. -/
def timeStepSeconds : ℕ := 5

/-- Source: `duration_seconds = 600`. -/
def durationSeconds : ℕ := 600

/-! ### The pass sampler (`calculate_trajectory`) -/

/-- Oracle abstracting the skyfield propagation pipeline used by
`calculate_trajectory`: `az`/`el` give the topocentric azimuth and
elevation in degrees of the satellite described by the TLE lines, for the
observer at the given geodetic latitude, longitude (degrees) and altitude
(metres), at the given instant (Unix epoch seconds).  `fail tle lat lon
alt start = some e` stands for an exception with text `e` raised anywhere
inside the `try` block of `calculate_trajectory` (TLE construction,
propagation, transformation); `none` means the computation runs to
completion. -/
structure Sky where
  az : List String → ℚ → ℚ → ℚ → ℤ → ℚ
  el : List String → ℚ → ℚ → ℚ → ℤ → ℚ
  fail : List String → ℚ → ℚ → ℚ → ℤ → Option String

/-- Source: `range(0, duration_seconds + 1, time_step_seconds)` — the tick
offsets `0, 5, …, 600` (since `5 ∣ 600`, the count is `600 / 5 + 1`). -/
def ticks : List ℕ := (List.range (durationSeconds / timeStepSeconds + 1)).map (· * timeStepSeconds)

/-- The sampled instants: `times[i] = t_start + i` seconds for each tick
offset `i` (`t_start` is the window start truncated to a whole second, so
instants are integral). -/
def tickTimes (start : ℤ) : List ℤ := ticks.map (fun i : ℕ => start + (i : ℤ))

/-- The topocentric sample the loop body computes at instant `t`:
`epoch_time`, `az_deg`, `el_deg`. -/
def sampleAt (sky : Sky) (tle : List String) (lat lon alt : ℚ) (t : ℤ) : TopocentricSample :=
  ⟨t, sky.az tle lat lon alt t, sky.el tle lat lon alt t⟩

/-- All samples evaluated over the window, in tick order. -/
def samplesAt (sky : Sky) (tle : List String) (lat lon alt : ℚ) (start : ℤ) :
    List TopocentricSample :=
  (tickTimes start).map (sampleAt sky tle lat lon alt)

/-- The samples surviving the horizon filter `if el_deg >= 0`. -/
def visibleSamples (sky : Sky) (tle : List String) (lat lon alt : ℚ) (start : ℤ) :
    List TopocentricSample :=
  (samplesAt sky tle lat lon alt start).filter (fun s => decide (0 ≤ s.el))

/-- The DSV point for one sample — the loop body
`point = f-string epoch_time,az_deg:.2f,el_deg:.2f`. -/
def encodeSample (s : TopocentricSample) : List Char :=
  intToChars s.instant ++ ',' :: fmt2 (round (100 * s.az)) ++ ',' :: fmt2 (round (100 * s.el))

/-- The trajectory codec encoder: the pipe join
`dsv_string = "|".join(trajectory_points)`. -/
def encode (t : Trajectory) : List Char := List.intercalate ['|'] (t.map encodeSample)

/-- Source message: returned with `None` when no point survives the
horizon filter. -/
def notVisibleMsg : String := "Satellite not visible in the selected 10 minute window."

/-- Source message: the success summary (`duration_seconds/60` renders as
`10.0` in Python float division). -/
def calcOkMsg (n : ℕ) : String :=
  "Calculated " ++ toString n ++ " points over 10.0 minutes."

/-- Source message: returned from the `except` clause of
`calculate_trajectory` with the exception text appended. -/
def calcErrorMsg (e : String) : String := "Calculation Error: " ++ e

/-- The core calculation `calculate_trajectory(tle, lat, lon, alt)`:
either a DSV wire string with a summary message, or `None` with an
explanatory message.  The code formats each surviving sample inside the
loop and then joins; that equals encoding the filtered sample list. -/
def calculate_trajectory (sky : Sky) (tle : List String) (lat lon alt : ℚ) (start : ℤ) :
    Option (List Char) × String :=
  match sky.fail tle lat lon alt start with
  | some e => (none, calcErrorMsg e)
  | none =>
    let pts := visibleSamples sky tle lat lon alt start
    if pts = [] then (none, notVisibleMsg)
    else (some (encode pts), calcOkMsg pts.length)

/-! ### The spec-modelled decoder -/

/-- Modelled from the spec: the Trajectory Codec operation
`decode(wire_string) -> Trajectory | FormatError` (spec 4.5) is not in
`src/` (only the encoder is; the decoder runs on the tracking device).
Per the spec, a point decodes from exactly three comma-separated fields —
an integer epoch and two fixed two-decimal angles. -/
def decodePoint (cs : List Char) : Option TopocentricSample :=
  match cs.splitOn ',' with
  | [f1, f2, f3] =>
    (parseIntChars f1).bind fun e =>
      (parseFix2 f2).bind fun a =>
        (parseFix2 f3).map fun l => ⟨e, (a : ℚ) / 100, (l : ℚ) / 100⟩
  | _ => none

/-- Modelled from the spec: decoding of a segment sequence — every
segment must parse as a point, otherwise the whole decode fails. -/
def decodeSegs : List (List Char) → Option Trajectory
  | [] => some []
  | seg :: rest => (decodePoint seg).bind fun s => (decodeSegs rest).map fun t => s :: t

/-- Modelled from the spec: `decode` fails (`none`, standing for
`FormatError`) on empty input or on any pipe-separated segment that does
not parse as a point (spec 4.5). -/
def decode (cs : List Char) : Option Trajectory :=
  if cs = [] then none
  else decodeSegs (cs.splitOn '|')

/-- A rational already rounded to two decimal places (so the lossy
2-decimal wire formatting is exact on it). -/
def rounded2 (q : ℚ) : Prop := ((round (100 * q) : ℤ) : ℚ) / 100 = q

/-- Every azimuth and elevation of the trajectory is already rounded to
two decimal places. -/
def Rounded2Traj (t : Trajectory) : Prop := ∀ s ∈ t, rounded2 s.az ∧ rounded2 s.el

/-! ### The `/api/calculate` endpoint -/

/-- A JSON coordinate value in the request body: a number, or `null`
(non-numeric JSON payloads other than `null` are outside the model; they
take the same 500 path as `null` since `float()` raises on them). -/
inductive CoordVal where
  | num (q : ℚ)
  | null
deriving DecidableEq

/-- Python `float()` applied to a coordinate value: a number converts to
itself, `float(None)` raises (modelled as `none`). -/
def pyFloatCoord : CoordVal → Option ℚ
  | .num q => some q
  | .null => none

/-- The JSON body of a `/api/calculate` request.  The handler reads only
`latitude` and `longitude`; the other fields model caller-supplied data
the handler ignores (it always uses the hardcoded `ISS_TLE_LINES` and
`DEFAULT_ALT_M`). -/
structure CalcRequest where
  latitude : Option CoordVal
  longitude : Option CoordVal
  tle : Option (List String)
  altitude : Option CoordVal
deriving DecidableEq

/-- The JSON reply of `/api/calculate`: the `success` flag, the `message`,
the optional `trajectory_string`, and the HTTP status code. -/
structure CalcResponse where
  success : Bool
  message : String
  trajectory_string : Option (List Char)
  statusCode : ℕ
deriving DecidableEq, Repr

/-- Source message: the `except` clause of `api_calculate` (`500`); the
code appends the exception text, abstracted away here. -/
def serverErrorMsg : String := "Server Error during calculation: "

/-- The `/api/calculate` handler: reads `latitude`/`longitude` with the
defaults, coerces them with `float()` (a raised exception is the 500
branch), always passes the hardcoded `ISS_TLE_LINES` and `DEFAULT_ALT_M`
to `calculate_trajectory`, and wraps the outcome. -/
def api_calculate (sky : Sky) (start : ℤ) (req : CalcRequest) : CalcResponse :=
  match pyFloatCoord (req.latitude.getD (.num DEFAULT_LAT)),
        pyFloatCoord (req.longitude.getD (.num DEFAULT_LON)) with
  | some lat, some lon =>
    match calculate_trajectory sky ISS_TLE_LINES lat lon DEFAULT_ALT_M start with
    | (some d, m) => ⟨true, m, some d, 200⟩
    | (none, m) => ⟨false, m, none, 400⟩
  | _, _ => ⟨false, serverErrorMsg, none, 500⟩

/-! ### The device session endpoints -/

/-- Outcome of one outbound `requests` call: a device response (HTTP
status code and body text), or a transport error
(`requests.exceptions.RequestException` — connection refused, timeout,
and every other transport failure) with its text. -/
inductive NetResult where
  | resp (status : ℕ) (body : String)
  | transportError (detail : String)
deriving DecidableEq

/-- The JSON reply of `/api/upload_and_start` and `/api/command`:
`success`, `message`, the optional passthrough `esp32_response`, and the
HTTP status code. -/
structure DeviceReply where
  success : Bool
  message : String
  esp32_response : Option String
  statusCode : ℕ
deriving DecidableEq, Repr

/-- Source message: missing (or falsy, hence also empty) trajectory
string. -/
def missingTrajMsg : String := "Missing trajectory string."

/-- Source message: upload acknowledged. -/
def uploadSuccessMsg : String :=
  "Trajectory successfully uploaded and tracking initiated on ESP32."

/-- Source message: the device answered the upload with a non-200 status
(`502 Bad Gateway`). -/
def uploadFailedMsg (code : ℕ) : String :=
  "ESP32 Upload Failed. Status Code: " ++ toString code

/-- Source message: transport failure talking to the device
(`503 Service Unavailable`); the code appends the exception text. -/
def connectErrorMsg (e : String) : String :=
  "Error connecting to ESP32 at " ++ ESP32_IP_ADDRESS ++ ": " ++ e

/-- The `/api/upload_and_start` handler, parametrised by the device
(`net` maps the posted payload to the call outcome).  Also returns how
many network calls were made.  Python `if not trajectory_string` rejects
both a missing and an empty (falsy) string. -/
def api_upload_and_start (net : List Char → NetResult) (traj : Option (List Char)) :
    DeviceReply × ℕ :=
  match traj with
  | none => (⟨false, missingTrajMsg, none, 400⟩, 0)
  | some s =>
    if s = [] then (⟨false, missingTrajMsg, none, 400⟩, 0)
    else
      match net s with
      | .resp code body =>
        if code = 200 then (⟨true, uploadSuccessMsg, some body, 200⟩, 1)
        else (⟨false, uploadFailedMsg code, some body, 502⟩, 1)
      | .transportError e => (⟨false, connectErrorMsg e, none, 503⟩, 1)

/-- Source message: command value outside the closed set. -/
def invalidCommandMsg : String := "Invalid command."

/-- Source message: command acknowledged (the code wraps the command name
in single quotation marks, omitted here). -/
def cmdSuccessMsg (c : String) : String :=
  "Command " ++ c ++ " sent successfully."

/-- Source message: the device answered the command with a non-200
status (`502`). -/
def cmdFailedMsg (code : ℕ) : String :=
  "ESP32 Command Failed. Status Code: " ++ toString code

/-- The `/api/command` handler: `data.get` of the command (missing ⇒
`None`, which is not in the closed list), the membership check
`command not in HOME, STOP` rejecting with 400 before any call, then one
call to the device.  Also returns how many network calls were made. -/
def api_command (net : String → NetResult) (cmd : Option String) : DeviceReply × ℕ :=
  match cmd with
  | none => (⟨false, invalidCommandMsg, none, 400⟩, 0)
  | some c =>
    if c ∈ (["HOME", "STOP"] : List String) then
      match net c with
      | .resp code body =>
        if code = 200 then (⟨true, cmdSuccessMsg c, some body, 200⟩, 1)
        else (⟨false, cmdFailedMsg code, some body, 502⟩, 1)
      | .transportError e => (⟨false, connectErrorMsg e, none, 503⟩, 1)
    else (⟨false, invalidCommandMsg, none, 400⟩, 0)

/-- Source message: the device answered the status poll with a non-200
status (`502`). -/
def statusErrorMsg (code : ℕ) : String :=
  "ESP32 status error: " ++ toString code

/-- Source message: the fixed transport-failure normalization of
`/api/status` (`503`; the exception detail is not included by the code). -/
def offlineMsg : String := "Could not reach ESP32 at " ++ ESP32_IP_ADDRESS

/-- The JSON reply of `/api/status`: either the device report passed
through unmodified (HTTP 200), or the normalized
`status OFFLINE` object with a message and the HTTP status code. -/
inductive StatusReply where
  | deviceReport (body : String)
  | offline (message : String) (statusCode : ℕ)
deriving DecidableEq, Repr

/-- The `/api/status` handler: one `requests.get` with `timeout=2`; a
200 response is passed through, a non-200 response and every transport
error (timeout expiry included) normalize to the `OFFLINE` reply.  As a
total function of the call outcome it never raises. -/
def api_status (net : NetResult) : StatusReply :=
  match net with
  | .resp code body => if code = 200 then .deviceReport body else .offline (statusErrorMsg code) 502
  | .transportError _ => .offline offlineMsg 503

/-! ### Lemmas: digits and decimal rendering -/

theorem digitOf_mem (d : ℕ) (h : d < 10) : digitOf d ∈ digitChars := by
  interval_cases d <;> decide

theorem digitVal_digitOf (d : ℕ) (h : d < 10) : digitVal (digitOf d) = d := by
  interval_cases d <;> decide

theorem mem_digitChars_facts {c : Char} (h : c ∈ digitChars) :
    c.isDigit = true ∧ c.isWhitespace = false ∧ c ≠ ',' ∧ c ≠ '.' ∧ c ≠ '|' ∧ c ≠ '-' := by
  fin_cases h <;> exact ⟨by decide, by decide, by decide, by decide, by decide, by decide⟩

theorem natToChars_ne_nil (n : ℕ) : natToChars n ≠ [] := by
  rw [natToChars]
  split <;> simp

theorem mem_natToChars (n : ℕ) : ∀ c ∈ natToChars n, c ∈ digitChars := by
  induction n using Nat.strong_induction_on with
  | _ n ih =>
    rw [natToChars]
    split
    · next h =>
      intro c hc
      simp only [List.mem_singleton] at hc
      exact hc ▸ digitOf_mem n h
    · next h =>
      intro c hc
      rcases List.mem_append.mp hc with hc | hc
      · exact ih (n / 10) (Nat.div_lt_self (by omega) (by omega)) c hc
      · simp only [List.mem_singleton] at hc
        exact hc ▸ digitOf_mem (n % 10) (Nat.mod_lt _ (by omega))

theorem foldl_natToChars (n : ℕ) : ∀ a : ℕ,
    (natToChars n).foldl (fun a c => 10 * a + digitVal c) a
      = a * 10 ^ (natToChars n).length + n := by
  induction n using Nat.strong_induction_on with
  | _ n ih =>
    intro a
    rw [natToChars]
    split
    · next h =>
      simp [List.foldl, digitVal_digitOf n h]
      omega
    · next h =>
      rw [List.foldl_append, ih (n / 10) (Nat.div_lt_self (by omega) (by omega)) a]
      simp only [List.foldl, List.length_append, List.length_singleton]
      rw [digitVal_digitOf (n % 10) (Nat.mod_lt _ (by omega)), pow_succ]
      have hdm := Nat.div_add_mod n 10
      set M := 10 ^ (natToChars (n / 10)).length
      have hlin : a * (M * 10) = 10 * (a * M) := by ring
      omega

theorem parseNat_natToChars (n : ℕ) : parseNat (natToChars n) = some n := by
  have hcond : natToChars n ≠ [] ∧ ∀ c ∈ natToChars n, c.isDigit = true :=
    ⟨natToChars_ne_nil n, fun c hc => (mem_digitChars_facts (mem_natToChars n c hc)).1⟩
  rw [parseNat, if_pos hcond, foldl_natToChars]
  simp

theorem head?_natToChars_mem (n : ℕ) {c : Char} (h : (natToChars n).head? = some c) :
    c ∈ digitChars := by
  obtain ⟨d, t, hd⟩ := List.exists_cons_of_ne_nil (natToChars_ne_nil n)
  rw [hd] at h
  simp only [List.head?_cons, Option.some.injEq] at h
  exact h ▸ mem_natToChars n d (by rw [hd]; exact List.mem_cons_self d t)

theorem mem_intToChars (z : ℤ) : ∀ c ∈ intToChars z, c ∈ '-' :: digitChars := by
  rw [intToChars]
  split
  · intro c hc
    rcases List.mem_cons.mp hc with hc | hc
    · exact hc ▸ List.mem_cons_self _ _
    · exact List.mem_cons_of_mem _ (mem_natToChars _ c hc)
  · exact fun c hc => List.mem_cons_of_mem _ (mem_natToChars _ c hc)

theorem intToChars_ne_nil (z : ℤ) : intToChars z ≠ [] := by
  rw [intToChars]
  split
  · simp
  · exact natToChars_ne_nil _

theorem parseIntChars_intToChars (z : ℤ) : parseIntChars (intToChars z) = some z := by
  rw [intToChars]
  split
  · next h =>
    rw [parseIntChars]
    simp only [List.head?_cons, List.tail_cons, if_pos rfl, parseNat_natToChars]
    have hz : ((z.natAbs : ℤ)) = -z := by omega
    simp [hz]
  · next h =>
    rw [parseIntChars, if_neg, parseNat_natToChars]
    · have hz : ((z.natAbs : ℤ)) = z := by omega
      simp [hz]
    · intro hh
      exact (mem_digitChars_facts (head?_natToChars_mem _ hh)).2.2.2.2.2 rfl

theorem mem_pad2 (m : ℕ) (h : m < 100) : ∀ c ∈ pad2 m, c ∈ digitChars := by
  intro c hc
  rcases List.mem_cons.mp hc with hc | hc
  · exact hc ▸ digitOf_mem _ (by omega)
  · simp only [List.mem_singleton] at hc
    exact hc ▸ digitOf_mem _ (Nat.mod_lt _ (by omega))

theorem parseNat_pad2 (m : ℕ) (h : m < 100) : parseNat (pad2 m) = some m := by
  have hcond : pad2 m ≠ [] ∧ ∀ c ∈ pad2 m, c.isDigit = true :=
    ⟨by simp [pad2], fun c hc => (mem_digitChars_facts (mem_pad2 m h c hc)).1⟩
  rw [parseNat, if_pos hcond]
  simp only [pad2, List.foldl]
  rw [digitVal_digitOf _ (by omega), digitVal_digitOf _ (Nat.mod_lt _ (by omega))]
  congr 1
  omega

/-! ### Lemmas: fixed two-decimal formatting and its parse -/

theorem mem_fmt2 (z : ℤ) : ∀ c ∈ fmt2 z, c ∈ '-' :: '.' :: digitChars := by
  intro c hc
  rw [fmt2] at hc
  rcases List.mem_append.mp hc with hc | hc
  · rcases List.mem_append.mp hc with hc | hc
    · split at hc
      · simp only [List.mem_singleton] at hc
        exact hc ▸ List.mem_cons_self _ _
      · simp at hc
    · exact List.mem_cons_of_mem _ (List.mem_cons_of_mem _ (mem_natToChars _ c hc))
  · rcases List.mem_cons.mp hc with hc | hc
    · exact hc ▸ List.mem_cons_of_mem _ (List.mem_cons_self _ _)
    · exact List.mem_cons_of_mem _ (List.mem_cons_of_mem _
        (mem_pad2 _ (Nat.mod_lt _ (by omega)) c hc))

theorem splitOn_dot_fmt2core (n : ℕ) :
    (natToChars (n / 100) ++ '.' :: pad2 (n % 100)).splitOn '.'
      = [natToChars (n / 100), pad2 (n % 100)] := by
  have h1 : ∀ x ∈ natToChars (n / 100), ¬((x == '.') = true) := by
    intro x hx
    simp only [beq_iff_eq]
    exact (mem_digitChars_facts (mem_natToChars _ x hx)).2.2.2.1
  have h2 : ∀ x ∈ pad2 (n % 100), ¬((x == '.') = true) := by
    intro x hx
    simp only [beq_iff_eq]
    exact (mem_digitChars_facts (mem_pad2 _ (Nat.mod_lt _ (by omega)) x hx)).2.2.2.1
  simp only [List.splitOn]
  rw [List.splitOnP_first _ _ h1 '.' (by simp), List.splitOnP_eq_single _ _ h2]

theorem parseFix2Nat_core (n : ℕ) :
    parseFix2Nat (natToChars (n / 100) ++ '.' :: pad2 (n % 100)) = some n := by
  rw [parseFix2Nat, splitOn_dot_fmt2core]
  simp only [pad2, List.length_cons, List.length_nil]
  rw [if_pos (by trivial), parseNat_natToChars]
  have hp : parseNat [digitOf (n % 100 / 10), digitOf (n % 100 % 10)] = some (n % 100) :=
    parseNat_pad2 (n % 100) (Nat.mod_lt _ (by omega))
  simp only [pad2] at hp
  rw [hp]
  have hval : 100 * (n / 100) + n % 100 = n := by omega
  simp [hval]

theorem parseFix2_fmt2 (z : ℤ) : parseFix2 (fmt2 z) = some z := by
  rw [fmt2]
  split
  · next h =>
    rw [List.append_assoc, List.singleton_append, parseFix2]
    simp only [List.head?_cons, List.tail_cons, if_pos rfl]
    rw [parseFix2Nat_core]
    have hz : ((z.natAbs : ℤ)) = -z := by omega
    simp [hz]
  · next h =>
    rw [List.nil_append, parseFix2, if_neg, parseFix2Nat_core]
    · have hz : ((z.natAbs : ℤ)) = z := by omega
      simp [hz]
    · rw [List.head?_append_of_ne_nil _ (natToChars_ne_nil _)]
      intro hh
      exact (mem_digitChars_facts (head?_natToChars_mem _ hh)).2.2.2.2.2 rfl

/-! ### Lemmas: point encoding and the codec round trip -/

theorem mem_encodeSample (s : TopocentricSample) :
    ∀ c ∈ encodeSample s, c ∈ '-' :: '.' :: ',' :: digitChars := by
  have hfmt : ∀ z : ℤ, ∀ c ∈ ',' :: fmt2 z, c ∈ '-' :: '.' :: ',' :: digitChars := by
    intro z c hc
    rcases List.mem_cons.mp hc with hc | hc
    · exact hc ▸ List.mem_cons_of_mem _ (List.mem_cons_of_mem _ (List.mem_cons_self _ _))
    · rcases List.mem_cons.mp (mem_fmt2 _ c hc) with hc | hc
      · exact hc ▸ List.mem_cons_self _ _
      · rcases List.mem_cons.mp hc with hc | hc
        · exact hc ▸ List.mem_cons_of_mem _ (List.mem_cons_self _ _)
        · exact List.mem_cons_of_mem _ (List.mem_cons_of_mem _ (List.mem_cons_of_mem _ hc))
  intro c hc
  rw [encodeSample] at hc
  rcases List.mem_append.mp hc with hc | hc
  · rcases List.mem_append.mp hc with hc | hc
    · rcases List.mem_cons.mp (mem_intToChars _ c hc) with hc | hc
      · exact hc ▸ List.mem_cons_self _ _
      · exact List.mem_cons_of_mem _ (List.mem_cons_of_mem _ (List.mem_cons_of_mem _ hc))
    · exact hfmt _ c hc
  · exact hfmt _ c hc

theorem encodeSample_ne_nil (s : TopocentricSample) : encodeSample s ≠ [] := by
  rw [encodeSample]
  intro h
  exact intToChars_ne_nil s.instant (List.append_eq_nil.mp (List.append_eq_nil.mp h).1).1

theorem pipe_not_mem_encodeSample (s : TopocentricSample) : '|' ∉ encodeSample s := by
  intro hc
  exact absurd (mem_encodeSample s '|' hc) (by decide)

theorem splitOn_comma_encodeSample (s : TopocentricSample) :
    (encodeSample s).splitOn ','
      = [intToChars s.instant, fmt2 (round (100 * s.az)), fmt2 (round (100 * s.el))] := by
  have hA : ∀ x ∈ intToChars s.instant, ¬((x == ',') = true) := by
    intro x hx
    have hmem := mem_intToChars _ x hx
    simp only [beq_iff_eq]
    rintro rfl
    exact absurd hmem (by decide)
  have hB : ∀ x ∈ fmt2 (round (100 * s.az)), ¬((x == ',') = true) := by
    intro x hx
    have hmem := mem_fmt2 _ x hx
    simp only [beq_iff_eq]
    rintro rfl
    exact absurd hmem (by decide)
  have hC : ∀ x ∈ fmt2 (round (100 * s.el)), ¬((x == ',') = true) := by
    intro x hx
    have hmem := mem_fmt2 _ x hx
    simp only [beq_iff_eq]
    rintro rfl
    exact absurd hmem (by decide)
  rw [encodeSample, List.append_assoc, List.cons_append]
  simp only [List.splitOn]
  rw [List.splitOnP_first _ _ hA ',' (by simp),
    List.splitOnP_first _ _ hB ',' (by simp),
    List.splitOnP_eq_single _ _ hC]

theorem decodePoint_encodeSample (s : TopocentricSample)
    (ha : rounded2 s.az) (he : rounded2 s.el) :
    decodePoint (encodeSample s) = some s := by
  rcases s with ⟨i, a, e⟩
  rw [rounded2] at ha he
  simp only at ha he
  rw [decodePoint, splitOn_comma_encodeSample]
  simp [parseIntChars_intToChars, parseFix2_fmt2, ha, he]

theorem intercalate_pipe_cons_cons (x y : List Char) (t : List (List Char)) :
    List.intercalate ['|'] (x :: y :: t) = x ++ '|' :: List.intercalate ['|'] (y :: t) := by
  simp [List.intercalate, List.intersperse_cons_cons]

theorem intercalate_pipe_singleton (x : List Char) : List.intercalate ['|'] [x] = x := by
  simp [List.intercalate]

theorem encode_ne_nil (t : Trajectory) (h : t ≠ []) : encode t ≠ [] := by
  match t with
  | [] => exact absurd rfl h
  | [s] =>
    rw [encode, List.map_singleton, intercalate_pipe_singleton]
    exact encodeSample_ne_nil s
  | s :: s2 :: t2 =>
    rw [encode, List.map_cons, List.map_cons, intercalate_pipe_cons_cons]
    intro hn
    exact encodeSample_ne_nil s (List.append_eq_nil.mp hn).1

theorem mem_encode : ∀ (t : Trajectory), ∀ c ∈ encode t, c ∈ '|' :: '-' :: '.' :: ',' :: digitChars
  | [] => by
    intro c hc
    simp [encode, List.intercalate] at hc
  | [s] => by
    intro c hc
    rw [encode, List.map_singleton, intercalate_pipe_singleton] at hc
    exact List.mem_cons_of_mem _ (mem_encodeSample s c hc)
  | s :: s2 :: t2 => by
    intro c hc
    rw [encode, List.map_cons, List.map_cons, intercalate_pipe_cons_cons] at hc
    rcases List.mem_append.mp hc with hc | hc
    · exact List.mem_cons_of_mem _ (mem_encodeSample s c hc)
    · rcases List.mem_cons.mp hc with hc | hc
      · exact hc ▸ List.mem_cons_self _ _
      · exact mem_encode (s2 :: t2) c (by rw [encode, List.map_cons]; exact hc)

theorem fmt2_ne_nil (z : ℤ) : fmt2 z ≠ [] := by
  rw [fmt2]
  simp

theorem getLast?_fmt2_digit (z : ℤ) : ∃ d ∈ digitChars, (fmt2 z).getLast? = some d := by
  refine ⟨digitOf (z.natAbs % 100 % 10), digitOf_mem _ (Nat.mod_lt _ (by omega)), ?_⟩
  rw [fmt2, List.getLast?_append_cons]
  simp [pad2]

theorem getLast?_encodeSample_digit (s : TopocentricSample) :
    ∃ d ∈ digitChars, (encodeSample s).getLast? = some d := by
  obtain ⟨d, hd, hlast⟩ := getLast?_fmt2_digit (round (100 * s.el))
  refine ⟨d, hd, ?_⟩
  rw [encodeSample, List.getLast?_append_cons]
  obtain ⟨c, cs, hcc⟩ := List.exists_cons_of_ne_nil (fmt2_ne_nil (round (100 * s.el)))
  rw [hcc, List.getLast?_cons_cons, ← hcc, hlast]

theorem getLast?_encode_digit :
    ∀ (t : Trajectory), t ≠ [] → ∃ d ∈ digitChars, (encode t).getLast? = some d
  | [], h => absurd rfl h
  | [s], _ => by
    rw [encode, List.map_singleton, intercalate_pipe_singleton]
    exact getLast?_encodeSample_digit s
  | s :: s2 :: t2, _ => by
    obtain ⟨d, hd, hlast⟩ := getLast?_encode_digit (s2 :: t2) (by simp)
    refine ⟨d, hd, ?_⟩
    rw [encode, List.map_cons, List.map_cons, intercalate_pipe_cons_cons,
      List.getLast?_append_cons]
    have he2 : encode (s2 :: t2) ≠ [] := encode_ne_nil _ (by simp)
    rw [encode, List.map_cons] at he2 hlast
    obtain ⟨c, cs, hcc⟩ := List.exists_cons_of_ne_nil he2
    rw [hcc, List.getLast?_cons_cons, ← hcc, hlast]

theorem decodeSegs_map_encodeSample (t : Trajectory)
    (h : ∀ s ∈ t, decodePoint (encodeSample s) = some s) :
    decodeSegs (t.map encodeSample) = some t := by
  induction t with
  | nil => rfl
  | cons s t2 ih =>
    rw [List.map_cons, decodeSegs, h s (List.mem_cons_self _ _),
      ih (fun x hx => h x (List.mem_cons_of_mem _ hx))]
    rfl

theorem splitOn_pipe_encode (t : Trajectory) (h : t ≠ []) :
    (encode t).splitOn '|' = t.map encodeSample := by
  rw [encode]
  apply List.splitOn_intercalate
  · intro l hl
    obtain ⟨s, _, rfl⟩ := List.mem_map.mp hl
    exact pipe_not_mem_encodeSample s
  · simpa using h

theorem decode_encode_of_rounded (t : Trajectory) (h : t ≠ []) (hr : Rounded2Traj t) :
    decode (encode t) = some t := by
  rw [decode, if_neg (encode_ne_nil t h), splitOn_pipe_encode t h]
  exact decodeSegs_map_encodeSample t
    (fun s hsm => decodePoint_encodeSample s (hr s hsm).1 (hr s hsm).2)

/-! ### Lemmas: the tick grid and the horizon filter -/

theorem mem_ticks_iff (i : ℕ) : i ∈ ticks ↔ ∃ k : ℕ, i = k * 5 ∧ k * 5 ≤ 600 := by
  rw [ticks]
  simp only [List.mem_map, List.mem_range, timeStepSeconds, durationSeconds]
  constructor
  · rintro ⟨k, hk, rfl⟩
    exact ⟨k, rfl, by omega⟩
  · rintro ⟨k, rfl, hk⟩
    exact ⟨k, by omega, rfl⟩

theorem le_of_mem_ticks {i : ℕ} (h : i ∈ ticks) : i ≤ 600 := by
  obtain ⟨k, rfl, hk⟩ := (mem_ticks_iff i).mp h
  omega

theorem pairwise_ticks : ticks.Pairwise (· < ·) := by
  rw [ticks]
  exact (List.pairwise_lt_range _).map _
    (fun a b h => by simp only [timeStepSeconds]; omega)

theorem pairwise_tickTimes (start : ℤ) : (tickTimes start).Pairwise (· < ·) := by
  rw [tickTimes]
  exact pairwise_ticks.map _
    (fun a b h => add_lt_add_left (by exact_mod_cast h) start)

theorem mem_tickTimes_bounds {start u : ℤ} (h : u ∈ tickTimes start) :
    start ≤ u ∧ u ≤ start + 600 := by
  rw [tickTimes] at h
  obtain ⟨i, hi, rfl⟩ := List.mem_map.mp h
  have := le_of_mem_ticks hi
  omega

theorem head?_filter_min (p : ℤ → Bool) :
    ∀ (l : List ℤ), l.Pairwise (· < ·) → ∀ b, ((l.filter p).head? = some b) →
      ∀ t ∈ l, t < b → p t = false := by
  intro l
  induction l with
  | nil =>
    intro _ b hb
    simp at hb
  | cons a tl ih =>
    intro hp b hb t ht htb
    obtain ⟨ha, htl⟩ := List.pairwise_cons.mp hp
    rw [List.filter_cons] at hb
    by_cases hpa : p a = true
    · rw [if_pos hpa] at hb
      simp only [List.head?_cons, Option.some.injEq] at hb
      subst hb
      rcases List.mem_cons.mp ht with rfl | htm
      · exact absurd htb (lt_irrefl _)
      · exact absurd htb (by have := ha t htm; omega)
    · rw [if_neg (by simpa using hpa)] at hb
      rcases List.mem_cons.mp ht with rfl | htm
      · simpa using hpa
      · exact ih htl b hb t htm htb

theorem chain'_filter_pairwise (p : ℤ → Bool) :
    ∀ (l : List ℤ), l.Pairwise (· < ·) →
      (l.filter p).Chain' (fun i j => i ∈ l ∧ j ∈ l ∧ i < j ∧
        ∀ t ∈ l, i < t → t < j → p t = false) := by
  intro l
  induction l with
  | nil =>
    intro _
    simp
  | cons a tl ih =>
    intro hp
    obtain ⟨ha, htl⟩ := List.pairwise_cons.mp hp
    rw [List.filter_cons]
    by_cases hpa : p a = true
    · rw [if_pos hpa, List.chain'_cons']
      constructor
      · intro y hy
        have hyf : y ∈ tl.filter p := List.mem_of_mem_head? hy
        have hytl : y ∈ tl := List.mem_of_mem_filter hyf
        refine ⟨List.mem_cons_self _ _, List.mem_cons_of_mem _ hytl, ha y hytl, ?_⟩
        intro t ht h1 h2
        rcases List.mem_cons.mp ht with rfl | htm
        · exact absurd h1 (lt_irrefl _)
        · exact head?_filter_min p tl htl y (Option.mem_def.mp hy) t htm h2
      · refine (ih htl).imp ?_
        rintro i j ⟨hi, hj, hij, hmid⟩
        refine ⟨List.mem_cons_of_mem _ hi, List.mem_cons_of_mem _ hj, hij, ?_⟩
        intro t ht h1 h2
        rcases List.mem_cons.mp ht with rfl | htm
        · exact absurd (ha i hi) (by omega)
        · exact hmid t htm h1 h2
    · rw [if_neg (by simpa using hpa)]
      refine (ih htl).imp ?_
      rintro i j ⟨hi, hj, hij, hmid⟩
      refine ⟨List.mem_cons_of_mem _ hi, List.mem_cons_of_mem _ hj, hij, ?_⟩
      intro t ht h1 h2
      rcases List.mem_cons.mp ht with rfl | htm
      · simpa using hpa
      · exact hmid t htm h1 h2

theorem visibleSamples_eq_map_filter (sky : Sky) (tle : List String) (lat lon alt : ℚ)
    (start : ℤ) :
    visibleSamples sky tle lat lon alt start
      = ((tickTimes start).filter (fun u => decide (0 ≤ sky.el tle lat lon alt u))).map
          (sampleAt sky tle lat lon alt) := by
  rw [visibleSamples, samplesAt, List.filter_map]
  rfl

/-! ### Concrete instances used by witnesses -/

/-- A concrete oracle: the satellite sits at azimuth 180, elevation 10
everywhere, and no exception is raised. -/
def sky0 : Sky := ⟨fun _ _ _ _ _ => 180, fun _ _ _ _ _ => 10, fun _ _ _ _ _ => none⟩

/-- A concrete oracle whose satellite is always below the horizon. -/
def skyBelow : Sky := ⟨fun _ _ _ _ _ => 180, fun _ _ _ _ _ => -5, fun _ _ _ _ _ => none⟩

/-! ### Claim theorems -/

/-- C1: for every calculation request the pass sampler evaluates exactly
the ticks `t = start + k*step` for every natural `k` with
`k*step ≤ duration` (step 5 s, duration 600 s, start the current
instant), so every epoch in a returned trajectory lies between the
window start and the window start plus 600 — in particular the first
epoch is at least the window start and the last at most start + 600. -/
theorem pass_sampler_ticks_and_window :
    (∀ i : ℕ, i ∈ ticks ↔ ∃ k : ℕ, i = k * timeStepSeconds ∧ k * timeStepSeconds ≤ durationSeconds)
    ∧ timeStepSeconds = 5 ∧ durationSeconds = 600
    ∧ (∀ (sky : Sky) (tle : List String) (lat lon alt : ℚ) (start : ℤ),
        (samplesAt sky tle lat lon alt start).map TopocentricSample.instant
          = ticks.map (fun i : ℕ => start + (i : ℤ)))
    ∧ (∀ (sky : Sky) (tle : List String) (lat lon alt : ℚ) (start : ℤ),
        ∀ s ∈ visibleSamples sky tle lat lon alt start,
          start ≤ s.instant ∧ s.instant ≤ start + (durationSeconds : ℤ)) := by
  refine ⟨?_, rfl, rfl, ?_, ?_⟩
  · intro i
    simp only [timeStepSeconds, durationSeconds]
    exact mem_ticks_iff i
  · intro sky tle lat lon alt start
    rw [samplesAt, tickTimes, List.map_map, List.map_map]
    rfl
  · intro sky tle lat lon alt start s hs
    rw [visibleSamples] at hs
    have hsub := List.mem_of_mem_filter hs
    rw [samplesAt] at hsub
    obtain ⟨u, hu, rfl⟩ := List.mem_map.mp hsub
    have hb := mem_tickTimes_bounds hu
    simp only [sampleAt, durationSeconds]
    exact_mod_cast hb

/-- C1 witness: in a concrete run (constant elevation 10, window start 0)
the sample at instant 0 is in the returned trajectory and its epoch lies
within the window. -/
theorem pass_sampler_ticks_and_window_witness :
    (0 : ℤ) ≤ (⟨0, 180, 10⟩ : TopocentricSample).instant
      ∧ (⟨0, 180, 10⟩ : TopocentricSample).instant ≤ 0 + (durationSeconds : ℤ) :=
  pass_sampler_ticks_and_window.2.2.2.2 sky0 [] 0 0 0 0 ⟨0, 180, 10⟩ (by decide)

/-- C2: every sample in a returned trajectory has elevation ≥ 0;
sub-horizon samples are dropped (the trajectory is a sublist of the full
sample sequence, and every full-sequence sample with elevation ≥ 0 is
kept), never clamped or otherwise altered. -/
theorem horizon_filter_invariant :
    ∀ (sky : Sky) (tle : List String) (lat lon alt : ℚ) (start : ℤ),
      List.Sublist (visibleSamples sky tle lat lon alt start)
        (samplesAt sky tle lat lon alt start)
      ∧ (∀ s ∈ visibleSamples sky tle lat lon alt start, 0 ≤ s.el)
      ∧ (∀ s ∈ samplesAt sky tle lat lon alt start,
          0 ≤ s.el → s ∈ visibleSamples sky tle lat lon alt start) := by
  intro sky tle lat lon alt start
  refine ⟨?_, ?_, ?_⟩
  · rw [visibleSamples]
    exact List.filter_sublist _
  · intro s hs
    rw [visibleSamples] at hs
    simpa using List.of_mem_filter hs
  · intro s hs hel
    rw [visibleSamples]
    exact List.mem_filter.mpr ⟨hs, by simpa using hel⟩

/-- C2 witness: in a concrete run, the sample at instant 0 (elevation 10)
is kept by the horizon filter. -/
theorem horizon_filter_invariant_witness :
    (⟨0, 180, 10⟩ : TopocentricSample) ∈ visibleSamples sky0 [] 0 0 0 0 :=
  (horizon_filter_invariant sky0 [] 0 0 0 0).2.2 ⟨0, 180, 10⟩ (by decide) (by norm_num)

/-- C3: in every returned trajectory the sample instants are strictly
increasing, any two consecutive samples are `5 * k` seconds apart for
some `k ≥ 1` (so exactly one step apart when `k = 1`), and every skipped
tick strictly between them was below the horizon — gaps come only from
horizon filtering. -/
theorem trajectory_instants_strictly_increasing :
    ∀ (sky : Sky) (tle : List String) (lat lon alt : ℚ) (start : ℤ),
      (visibleSamples sky tle lat lon alt start).Chain'
        (fun a b => a.instant < b.instant
          ∧ (∃ k : ℕ, 1 ≤ k ∧ b.instant = a.instant + (timeStepSeconds : ℤ) * k)
          ∧ (∀ u : ℤ, a.instant < u → u < b.instant → u ∈ tickTimes start →
              sky.el tle lat lon alt u < 0)) := by
  intro sky tle lat lon alt start
  rw [visibleSamples_eq_map_filter, List.chain'_map]
  refine (chain'_filter_pairwise _ _ (pairwise_tickTimes start)).imp ?_
  rintro i j ⟨hi, hj, hij, hmid⟩
  refine ⟨hij, ?_, ?_⟩
  · rw [tickTimes] at hi hj
    obtain ⟨a, hai, rfl⟩ := List.mem_map.mp hi
    obtain ⟨b, hbj, rfl⟩ := List.mem_map.mp hj
    obtain ⟨ka, rfl, _⟩ := (mem_ticks_iff a).mp hai
    obtain ⟨kb, rfl, _⟩ := (mem_ticks_iff b).mp hbj
    have hkk : ka < kb := by
      by_contra hcon
      have : kb * 5 ≤ ka * 5 := by omega
      omega
    refine ⟨kb - ka, by omega, ?_⟩
    simp only [sampleAt, timeStepSeconds]
    push_cast
    omega
  · intro u h1 h2 hu
    have hfalse := hmid u hu h1 h2
    simp only [decide_eq_false_iff_not, not_le] at hfalse
    exact hfalse

theorem calcErrorMsg_ne_notVisibleMsg (e : String) : calcErrorMsg e ≠ notVisibleMsg := by
  intro h
  have h1 : (calcErrorMsg e).data.head? = some 'C' := by
    rw [calcErrorMsg, String.data_append, List.head?_append_of_ne_nil _ (by decide)]
    decide
  have h2 : notVisibleMsg.data.head? = some 'S' := by decide
  rw [h, h2] at h1
  simp at h1

/-- C4: when zero samples survive the horizon filter the calculation
reports the distinct not-visible outcome — success flag `false`, the
fixed not-visible message, no trajectory string, HTTP 400 — rather than
an empty success; every outcome of `/api/calculate` carries a success
flag and a message, the flag is `true` exactly when a trajectory string
is present, and the not-visible message differs from both
computation-failure messages, so the outcomes are distinguishable. -/
theorem not_visible_distinct_outcome :
    ∀ (sky : Sky) (start : ℤ) (req : CalcRequest) (lat lon : ℚ),
      (pyFloatCoord (req.latitude.getD (.num DEFAULT_LAT)) = some lat →
        pyFloatCoord (req.longitude.getD (.num DEFAULT_LON)) = some lon →
        sky.fail ISS_TLE_LINES lat lon DEFAULT_ALT_M start = none →
        visibleSamples sky ISS_TLE_LINES lat lon DEFAULT_ALT_M start = [] →
        api_calculate sky start req = ⟨false, notVisibleMsg, none, 400⟩)
      ∧ (∀ e, pyFloatCoord (req.latitude.getD (.num DEFAULT_LAT)) = some lat →
          pyFloatCoord (req.longitude.getD (.num DEFAULT_LON)) = some lon →
          sky.fail ISS_TLE_LINES lat lon DEFAULT_ALT_M start = some e →
          api_calculate sky start req = ⟨false, calcErrorMsg e, none, 400⟩)
      ∧ (pyFloatCoord (req.latitude.getD (.num DEFAULT_LAT)) = none →
          api_calculate sky start req = ⟨false, serverErrorMsg, none, 500⟩)
      ∧ ((api_calculate sky start req).success = true ↔
          ∃ d, (api_calculate sky start req).trajectory_string = some d)
      ∧ (∀ e, calcErrorMsg e ≠ notVisibleMsg)
      ∧ serverErrorMsg ≠ notVisibleMsg := by
  intro sky start req lat lon
  refine ⟨?_, ?_, ?_, ?_, calcErrorMsg_ne_notVisibleMsg, by decide⟩
  · intro hla hlo hfail hvis
    simp [api_calculate, hla, hlo, calculate_trajectory, hfail, hvis]
  · intro e hla hlo hfail
    simp [api_calculate, hla, hlo, calculate_trajectory, hfail]
  · intro hla
    cases hlo : pyFloatCoord (req.longitude.getD (.num DEFAULT_LON)) with
    | none => simp [api_calculate, hla, hlo]
    | some x => simp [api_calculate, hla, hlo]
  · cases hla : pyFloatCoord (req.latitude.getD (.num DEFAULT_LAT)) with
    | none => simp [api_calculate, hla]
    | some lat2 =>
      cases hlo : pyFloatCoord (req.longitude.getD (.num DEFAULT_LON)) with
      | none => simp [api_calculate, hla, hlo]
      | some lon2 =>
        rcases hct : calculate_trajectory sky ISS_TLE_LINES lat2 lon2 DEFAULT_ALT_M start
          with ⟨od, m⟩
        cases od with
        | none => simp [api_calculate, hla, hlo, hct]
        | some d => simp [api_calculate, hla, hlo, hct]

/-- C4 witness: with an always-below-horizon satellite and an empty
request body, the endpoint returns the not-visible outcome. -/
theorem not_visible_distinct_outcome_witness :
    api_calculate skyBelow 0 ⟨none, none, none, none⟩ = ⟨false, notVisibleMsg, none, 400⟩ :=
  (not_visible_distinct_outcome skyBelow 0 ⟨none, none, none, none⟩
      DEFAULT_LAT DEFAULT_LON).1 rfl rfl rfl (by decide)

/-- C5: for every non-empty trajectory, the encoder emits exactly the
pipe join of the per-sample points (so splitting the wire string on the
pipe recovers the point list — no trailing delimiter, which is also
visible in the final character being a digit); each point splits on the
comma into exactly the integer epoch and the two fixed two-decimal
angles; every two-decimal angle text ends in a point and exactly two
digits; the wire string contains no whitespace; encoding is total; and a
transmitted string is always the encoding of a non-empty trajectory (the
not-visible outcome short-circuits first). -/
theorem wire_format_encode :
    ∀ (t : Trajectory), t ≠ [] →
      ((encode t).splitOn '|' = t.map encodeSample)
      ∧ (∀ s ∈ t, (encodeSample s).splitOn ','
          = [intToChars s.instant, fmt2 (round (100 * s.az)), fmt2 (round (100 * s.el))])
      ∧ (∀ z : ℤ, ∃ d1 d2, d1 ∈ digitChars ∧ d2 ∈ digitChars ∧
          ∃ pre, fmt2 z = pre ++ '.' :: [d1, d2] ∧ '.' ∉ pre)
      ∧ (∀ c ∈ encode t, c.isWhitespace = false)
      ∧ (encode t).getLast? ≠ some '|'
      ∧ (∀ (sky : Sky) (tle : List String) (lat lon alt : ℚ) (start : ℤ)
          (d : List Char) (m : String),
          calculate_trajectory sky tle lat lon alt start = (some d, m) →
            visibleSamples sky tle lat lon alt start ≠ []
            ∧ d = encode (visibleSamples sky tle lat lon alt start)) := by
  intro t ht
  refine ⟨splitOn_pipe_encode t ht, fun s _ => splitOn_comma_encodeSample s, ?_, ?_, ?_, ?_⟩
  · intro z
    refine ⟨digitOf (z.natAbs % 100 / 10), digitOf (z.natAbs % 100 % 10),
      digitOf_mem _ (by omega), digitOf_mem _ (Nat.mod_lt _ (by omega)),
      (if z < 0 then ['-'] else []) ++ natToChars (z.natAbs / 100), rfl, ?_⟩
    intro hdot
    rcases List.mem_append.mp hdot with hc | hc
    · split at hc <;> simp at hc
    · exact (mem_digitChars_facts (mem_natToChars _ _ hc)).2.2.2.1 rfl
  · intro c hc
    rcases List.mem_cons.mp (mem_encode t c hc) with rfl | h
    · decide
    · rcases List.mem_cons.mp h with rfl | h
      · decide
      · rcases List.mem_cons.mp h with rfl | h
        · decide
        · rcases List.mem_cons.mp h with rfl | h
          · decide
          · exact (mem_digitChars_facts h).2.1
  · obtain ⟨d, hd, hl⟩ := getLast?_encode_digit t ht
    rw [hl]
    intro heq
    simp only [Option.some.injEq] at heq
    subst heq
    exact absurd hd (by decide)
  · intro sky tle lat lon alt start d m hcalc
    simp only [calculate_trajectory] at hcalc
    cases hfail : sky.fail tle lat lon alt start with
    | some e =>
      rw [hfail] at hcalc
      simp at hcalc
    | none =>
      rw [hfail] at hcalc
      by_cases hvis : visibleSamples sky tle lat lon alt start = []
      · rw [if_pos hvis] at hcalc
        simp at hcalc
      · rw [if_neg hvis] at hcalc
        simp only [Prod.mk.injEq, Option.some.injEq] at hcalc
        exact ⟨hvis, hcalc.1.symm⟩

/-- C5 witness: splitting the encoding of a concrete one-sample
trajectory on the pipe recovers the single point. -/
theorem wire_format_encode_witness :
    (encode [(⟨0, 180, 10⟩ : TopocentricSample)]).splitOn '|'
      = [(⟨0, 180, 10⟩ : TopocentricSample)].map encodeSample :=
  (wire_format_encode [⟨0, 180, 10⟩] (by simp)).1

/-- C6 counterexample: the empty trajectory is (vacuously) rounded to two
decimals, its encoding is the empty string, and `decode` rejects empty
input — so `decode (encode t) = t` fails at `t = []` as stated. -/
theorem decode_encode_empty_counterexample :
    Rounded2Traj ([] : Trajectory) ∧ decode (encode ([] : Trajectory)) ≠ some ([] : Trajectory) := by
  constructor
  · intro s hs
    simp at hs
  · intro h
    have hnone : decode (encode ([] : Trajectory)) = none := rfl
    rw [hnone] at h
    simp at h

/-- C6 (amended): for every non-empty trajectory whose azimuths and
elevations are already rounded to two decimal places, decoding the
encoding returns exactly the original trajectory. -/
theorem decode_encode_roundtrip (t : Trajectory) (h : t ≠ []) (hr : Rounded2Traj t) :
    decode (encode t) = some t :=
  decode_encode_of_rounded t h hr

/-- C6 witness: the round trip on a concrete one-sample trajectory with
two-decimal values. -/
theorem decode_encode_roundtrip_witness :
    decode (encode [(⟨100, 180, 45⟩ : TopocentricSample)]) = some [⟨100, 180, 45⟩] :=
  decode_encode_roundtrip [⟨100, 180, 45⟩] (by simp)
    (by
      intro s hs
      simp only [List.mem_singleton] at hs
      subst hs
      constructor <;>
        · rw [rounded2]
          norm_num [round_eq])

/-- C7: the command endpoint accepts exactly the closed set HOME, STOP —
a missing command or any other value is rejected (400, invalid-command
message) with zero network calls made, while HOME or STOP answered by
the device with status 200 yields the success acknowledgement after
exactly one call. -/
theorem command_closed_set :
    ∀ (net : String → NetResult) (cmd : Option String),
      (cmd = none → api_command net cmd = (⟨false, invalidCommandMsg, none, 400⟩, 0))
      ∧ (∀ c, cmd = some c → c ∉ (["HOME", "STOP"] : List String) →
          api_command net cmd = (⟨false, invalidCommandMsg, none, 400⟩, 0))
      ∧ (∀ c body, cmd = some c → c ∈ (["HOME", "STOP"] : List String) →
          net c = .resp 200 body →
          api_command net cmd = (⟨true, cmdSuccessMsg c, some body, 200⟩, 1)) := by
  intro net cmd
  refine ⟨?_, ?_, ?_⟩
  · rintro rfl
    rfl
  · rintro c rfl hc
    simp [api_command, hc]
  · rintro c body rfl hc hnet
    simp [api_command, hc, hnet]

/-- C7 witness: a concrete device answering 200 — the command FOO is
rejected with zero calls, the command HOME is acknowledged. -/
theorem command_closed_set_witness :
    api_command (fun _ => .resp 200 ("OK")) (some ("FOO"))
        = (⟨false, invalidCommandMsg, none, 400⟩, 0)
      ∧ api_command (fun _ => .resp 200 ("OK")) (some ("HOME"))
        = (⟨true, cmdSuccessMsg ("HOME"), some ("OK"), 200⟩, 1) :=
  ⟨(command_closed_set (fun _ => .resp 200 ("OK")) (some ("FOO"))).2.1 "FOO" rfl (by decide),
    (command_closed_set (fun _ => .resp 200 ("OK")) (some ("HOME"))).2.2 "HOME" "OK" rfl
      (by decide) rfl⟩

/-- C8: every transport error of the status poll — timeout expiry and
connection refusal included, all raised as `RequestException` — is
normalized to the single fixed Offline reply (status OFFLINE, fixed
message, HTTP 503), independent of the error detail; the handler is a
total function of the call outcome, so no raw transport error
propagates. -/
theorem status_offline_normalization :
    ∀ e : String, api_status (.transportError e) = .offline offlineMsg 503
      ∧ ∀ e2 : String, api_status (.transportError e) = api_status (.transportError e2) :=
  fun _ => ⟨rfl, fun _ => rfl⟩

/-- C9 counterexample: a device response with status 201 is a 200-class
success, yet the upload endpoint reports failure — the code accepts only
status 200 exactly, so success is not reported for every 200-class
response. -/
theorem upload_success_200_only_counterexample :
    (200 ≤ 201 ∧ 201 < 300)
      ∧ (api_upload_and_start (fun _ => .resp 201 ("Created")) (some ['x'])).1.success
          = false :=
  ⟨⟨by omega, by omega⟩, rfl⟩

/-- C9 (amended): for a present, non-empty payload, upload success is
reported exactly when the device returns status 200 exactly; every
other device status yields the reachable-but-rejected reply (502 with
the upload-failed message and the device body), every transport failure
yields the unreachable reply (503 with the connection-error message),
and the two error replies are distinguishable. -/
theorem upload_error_taxonomy :
    ∀ (net : List Char → NetResult) (s : List Char), s ≠ [] →
      ((api_upload_and_start net (some s)).1.success = true ↔
        ∃ body, net s = .resp 200 body)
      ∧ (∀ code body, net s = .resp code body → code ≠ 200 →
          (api_upload_and_start net (some s)).1
            = ⟨false, uploadFailedMsg code, some body, 502⟩)
      ∧ (∀ e, net s = .transportError e →
          (api_upload_and_start net (some s)).1 = ⟨false, connectErrorMsg e, none, 503⟩)
      ∧ (∀ code body e, (⟨false, uploadFailedMsg code, some body, 502⟩ : DeviceReply)
          ≠ ⟨false, connectErrorMsg e, none, 503⟩) := by
  intro net s hs
  refine ⟨?_, ?_, ?_, ?_⟩
  · cases hnet : net s with
    | resp code body =>
      by_cases h200 : code = 200
      · subst h200
        simp [api_upload_and_start, hs, hnet]
      · simp [api_upload_and_start, hs, hnet, h200]
    | transportError e => simp [api_upload_and_start, hs, hnet]
  · intro code body hnet h200
    simp [api_upload_and_start, hs, hnet, h200]
  · intro e hnet
    simp [api_upload_and_start, hs, hnet]
  · intro code body e h
    simp at h

/-- C9 witness: a concrete device answering 404 — the upload endpoint
returns the reachable-but-rejected reply. -/
theorem upload_error_taxonomy_witness :
    (api_upload_and_start (fun _ => .resp 404 ("nope")) (some ['x'])).1
      = ⟨false, uploadFailedMsg 404, some ("nope"), 502⟩ :=
  (upload_error_taxonomy (fun _ => .resp 404 ("nope")) ['x'] (by simp)).2.1 404 "nope"
    rfl (by omega)

/-- C10: two calculation requests whose latitude and longitude fields
are equal after substituting the defaults 39.86 and -84.38 for absent
fields, evaluated at the same start instant, produce identical
responses — the handler always uses the hardcoded ISS TLE and the 300 m
default altitude, so no other request field (caller-supplied TLE or
altitude included) influences the result. -/
theorem calculate_depends_only_on_coordinates :
    DEFAULT_ALT_M = 300
      ∧ ∀ (sky : Sky) (start : ℤ) (r1 r2 : CalcRequest),
          r1.latitude.getD (.num DEFAULT_LAT) = r2.latitude.getD (.num DEFAULT_LAT) →
          r1.longitude.getD (.num DEFAULT_LON) = r2.longitude.getD (.num DEFAULT_LON) →
          api_calculate sky start r1 = api_calculate sky start r2 := by
  refine ⟨rfl, ?_⟩
  intro sky start r1 r2 h1 h2
  simp only [api_calculate, h1, h2]

/-- C10 witness: an empty request, and a request passing the default
coordinates explicitly together with a caller TLE and altitude, get
identical responses. -/
theorem calculate_depends_only_on_coordinates_witness :
    api_calculate sky0 0 ⟨none, none, none, none⟩
      = api_calculate sky0 0
          ⟨some (.num DEFAULT_LAT), some (.num DEFAULT_LON), some ISS_TLE_LINES, some (.num 0)⟩ :=
  calculate_depends_only_on_coordinates.2 sky0 0
    ⟨none, none, none, none⟩
    ⟨some (.num DEFAULT_LAT), some (.num DEFAULT_LON), some ISS_TLE_LINES, some (.num 0)⟩
    rfl rfl

end StarTrack
